import Mathlib

/-!
Verification of the shards-fetcher HTTP resource fetcher.

Shallow embedding of `src/shards/fetcher/{core,decompress,resource,exceptions}.py`.
Bytes are modelled as `List Nat`, Python `None` as `Option.none`, raised
exceptions as explicit result constructors, and the external collaborators
(the gzip/zlib codecs and the SHA-256 hex digest, which the spec declares to
be standard-library collaborators outside the core) as function parameters:
decoders have type `List Nat → Option (List Nat)` (`none` models a raised
decode error) and the digest accumulator is modelled by the exact byte
sequence fed to it, with `H : List Nat → String` standing for the
hex digest of those bytes.
-/

/-! ## decompress.py -/

/-- Embedding of `decompress(data, encoding, is_chunked)` from
`src/shards/fetcher/decompress.py`.  `gzipD` models `gzip.decompress` and
`zlibD` models `zlib.decompress`; a `none` result models the decoder raising,
which the `try/except` swallows by returning the original data. -/
def decompress (gzipD zlibD : List Nat → Option (List Nat))
    (data : List Nat) (encoding : String) (is_chunked : Bool) : List Nat :=
  if is_chunked then data
  else if encoding = "gzip" then (gzipD data).getD data
  else if encoding = "deflate" then (zlibD data).getD data
  else data

/-! ## exceptions.py / core.py retry loop -/

/-- A fetched resource, embedding the `Resource` attributes set in
`src/shards/fetcher/resource.py` (`Resource.__init__`). -/
structure Metadata where
  headers : List (String × String)
  status_code : Nat
  content_type : String
  mime : Option String
  encoding : String
  etag : Option String
  last_modified : Option String
  content_encoding : String
  fetched_at : String
deriving DecidableEq

structure Resource where
  url : String
  redirected_url : Option String
  content : Option (List Nat)
  hash : Option String
  metadata : Option Metadata
  fetched_at : Option String
  file_path : Option String
deriving DecidableEq

/-- Outcome of one call to `Fetcher._fetch_once`: a returned `Resource`,
a raised `ValueError` (non-retriable), or any other raised exception
(retriable), carrying `str(e)`. -/
inductive Attempt where
  | success (r : Resource)
  | valueError (msg : String)
  | otherError (msg : String)
deriving DecidableEq

/-- Terminal outcome of `Fetcher._fetch_with_retries`: either the returned
`Resource` or a raised `FetchError url msg` (`src/shards/fetcher/exceptions.py`),
together with the number of the attempt on which the loop ended. -/
inductive FetchResult where
  | ok (r : Resource) (attempts : Nat)
  | fetchError (url : String) (msg : String) (attempts : Nat)
deriving DecidableEq

/-- `delay_base = 1` in `Fetcher._fetch_with_retries`. -/
def delay_base : Nat := 1

/-- The `while True` loop body of `Fetcher._fetch_with_retries`
(`src/shards/fetcher/core.py`).  `oracle n` gives the outcome of the n-th
call to `_fetch_once` (attempts are 1-indexed, as in the source where
`attempt` is incremented at the top of the loop).  `sleeps` accumulates the
durations passed to `asyncio.sleep`; `fuel` bounds the number of loop
iterations so the embedding is total — `none` models divergence of the loop,
which the source permits (e.g. `retries = 0` never satisfies
`attempt == self.retries`). -/
def fetchGo (url : String) (retries : Nat) (oracle : Nat → Attempt) :
    Nat → List Nat → Nat → Option (FetchResult × List Nat)
  | _, _, 0 => none
  | attempt, sleeps, fuel + 1 =>
    match oracle attempt with
    | .success r => some (.ok r attempt, sleeps)
    | .valueError m => some (.fetchError url m attempt, sleeps)
    | .otherError m =>
      if attempt = retries then
        some (.fetchError url m attempt, sleeps)
      else
        fetchGo url retries oracle (attempt + 1) (sleeps ++ [delay_base * 2 ^ attempt]) fuel

/-- `Fetcher._fetch_with_retries`: the loop starts with `attempt = 0` and
increments before the first try, so the first `_fetch_once` call is attempt 1. -/
def fetch_with_retries (url : String) (retries : Nat) (oracle : Nat → Attempt)
    (fuel : Nat) : Option (FetchResult × List Nat) :=
  fetchGo url retries oracle 1 [] fuel

/-! ## core.py single attempt: headers and method dispatch -/

/-- `DEFAULT_HEADERS` from `src/shards/fetcher/core.py`. -/
def DEFAULT_HEADERS : List (String × String) :=
  [("User-Agent", "Fetcher/1.0"), ("Accept-Encoding", "gzip, deflate")]

/-- Python truthiness of an optional dict: `None` and `{}` are falsy.
Models `headers or DEFAULT_HEADERS.copy()` in `Fetcher._fetch_once`. -/
def effectiveHeaders : Option (List (String × String)) → List (String × String)
  | none => DEFAULT_HEADERS
  | some [] => DEFAULT_HEADERS
  | some (h :: hs) => h :: hs

/-- An outgoing HTTP request issued through the aiohttp session. -/
structure Request where
  method : String
  url : String
  headers : List (String × String)
deriving DecidableEq

/-- Result of the header-defaulting and method-dispatch part of
`Fetcher._fetch_once`: either a network request is issued via
`session.get`/`session.post`, or `ValueError` is raised before any network
I/O (the final `else` branch). `method` is a string, as `HttpMethod` is a
`str` enum and callers may pass raw strings. -/
inductive OnceResult where
  | issued (req : Request)
  | valueError (msg : String)
deriving DecidableEq

def fetchOnceRequest (method url : String)
    (headers : Option (List (String × String))) : OnceResult :=
  let hs := effectiveHeaders headers
  if method = "GET" then .issued ⟨"GET", url, hs⟩
  else if method = "POST" then .issued ⟨"POST", url, hs⟩
  else .valueError ("Unsupported HTTP method: " ++ method)

/-- The attempt oracle induced by `_fetch_once` for a fixed call: when the
method dispatch raises `ValueError` no network request happens and every
attempt fails non-retriably; otherwise the outcome of attempt `n` is
whatever the network interaction `net` yields for the issued request. -/
def attemptOf (method url : String) (headers : Option (List (String × String)))
    (net : Nat → Request → Attempt) : Nat → Attempt :=
  fun n =>
    match fetchOnceRequest method url headers with
    | .valueError m => .valueError m
    | .issued req => net n req

/-! ## resource.py: materialization -/

/-- `CHUNK_SIZE = 8192` from `src/shards/fetcher/resource.py`. -/
def CHUNK_SIZE : Nat := 8192

/-- The open HTTP response handed to `Resource.from_response`: final URL
(`resp.url`), status, headers, the raw body bytes, and aiohttp's detected
text encoding (`resp.get_encoding()`). -/
structure Response where
  url : String
  status : Nat
  headers : List (String × String)
  body : List Nat
  get_encoding : String
deriving DecidableEq

/-- aiohttp header lookup (`resp.headers.get(key, default)` on a
case-insensitive multidict): first value whose key matches case-insensitively. -/
def headersGet (hs : List (String × String)) (key : String) : Option String :=
  (hs.find? (fun p => p.1.toLower == key.toLower)).map (·.2)

/-- Python truthiness of the optional `stream_to` path (`if stream_to:`):
`None` and the empty string are falsy. -/
def pyTruthy : Option String → Bool
  | none => false
  | some s => !s.isEmpty

/-- `resp.content.iter_chunked(CHUNK_SIZE)`: the body split into successive
chunks of at most `CHUNK_SIZE` bytes. -/
def iterChunked (l : List Nat) : List (List Nat) :=
  if h : l = [] then []
  else
    l.take CHUNK_SIZE :: iterChunked (l.drop CHUNK_SIZE)
termination_by l.length
decreasing_by
  have hl : 0 < l.length := List.length_pos.mpr h
  simp only [List.length_drop]
  have : 0 < CHUNK_SIZE := by decide
  omega

/-- One observable effect inside the `_stream_and_hash` loop body:
`hash.update(chunk)` or `f.write(chunk)`. -/
inductive StreamEvent where
  | hashUpd (chunk : List Nat)
  | fileWrite (chunk : List Nat)
deriving DecidableEq

/-- The event trace of `Resource._stream_and_hash`: for each chunk yielded by
`iter_chunked(CHUNK_SIZE)`, first `hash.update(chunk)` then `f.write(chunk)`,
before the next chunk is requested. -/
def stream_and_hash (body : List Nat) : List StreamEvent :=
  (iterChunked body).flatMap (fun c => [.hashUpd c, .fileWrite c])

/-- The bytes fed to the digest accumulator over a trace. -/
def hashedBytes (tr : List StreamEvent) : List Nat :=
  tr.flatMap (fun e => match e with | .hashUpd c => c | .fileWrite _ => [])

/-- The bytes written to the target file over a trace. -/
def writtenBytes (tr : List StreamEvent) : List Nat :=
  tr.flatMap (fun e => match e with | .fileWrite c => c | .hashUpd _ => [])

/-- `Resource._read_and_decompress`: bulk-read the body, then `decompress`
with the (already lower-cased) content encoding; `is_chunked` left at its
default `False`. -/
def read_and_decompress (gzipD zlibD : List Nat → Option (List Nat))
    (body : List Nat) (encoding : String) : List Nat :=
  decompress gzipD zlibD body encoding false

/-- `Resource._extract_metadata`. -/
def extract_metadata (resp : Response) (content_type : String)
    (mime : Option String) (encoding : String) (fetched_at : String) : Metadata :=
  { headers := resp.headers
    status_code := resp.status
    content_type := content_type
    mime := mime
    encoding := resp.get_encoding
    etag := headersGet resp.headers "ETag"
    last_modified := headersGet resp.headers "Last-Modified"
    content_encoding := encoding
    fetched_at := fetched_at }

/-- `Resource.from_response`, parameterized by the codec collaborators and by
the SHA-256 hex digest `H` (the digest of a byte sequence is `H` applied to
exactly the bytes passed through `sha256hash.update`).  Returns the built
`Resource` together with the trace of streaming effects (empty on the
buffered path, which performs no file I/O). -/
def from_response (gzipD zlibD : List Nat → Option (List Nat))
    (H : List Nat → String) (url : String) (resp : Response)
    (fetched_at : String) (stream_to : Option String) :
    Resource × List StreamEvent :=
  let content_type := (headersGet resp.headers "Content-Type").getD ""
  let mime := if content_type.isEmpty then none
              else some ((content_type.splitOn ";").headD "")
  let encoding := ((headersGet resp.headers "Content-Encoding").getD "").toLower
  let metadata := extract_metadata resp content_type mime encoding fetched_at
  if pyTruthy stream_to then
    let trace := stream_and_hash resp.body
    ({ url := url
       redirected_url := some resp.url
       content := none
       hash := some (H (hashedBytes trace))
       metadata := some metadata
       fetched_at := some fetched_at
       file_path := some (stream_to.getD "") }, trace)
  else
    let content_bytes := read_and_decompress gzipD zlibD resp.body encoding
    ({ url := url
       redirected_url := some resp.url
       content := some content_bytes
       hash := some (H content_bytes)
       metadata := some metadata
       fetched_at := some fetched_at
       file_path := none }, [])

/-! ## core.py: the concurrency gate

`Fetcher.__init__` creates `asyncio.Semaphore(concurrency)` and
`Fetcher.fetch` wraps the whole retrying fetch in `async with self.semaphore`,
so a fetch call acquires one slot before its network phase and the slot is
released unconditionally when the call finishes, including on failure.
Each fetch call (task) is modelled by three phases; a step either lets a
waiting task acquire a free slot and enter its network phase, or lets an
active task finish (successfully or not) and release its slot. -/

inductive TaskState where
  | waiting
  | active
  | done
deriving DecidableEq

def countActive : List TaskState → Nat
  | [] => 0
  | .active :: ts => countActive ts + 1
  | _ :: ts => countActive ts

def countWaiting : List TaskState → Nat
  | [] => 0
  | .waiting :: ts => countWaiting ts + 1
  | _ :: ts => countWaiting ts

def countDone : List TaskState → Nat
  | [] => 0
  | .done :: ts => countDone ts + 1
  | _ :: ts => countDone ts

/-- One scheduler step over (semaphore value, task states). `acquire` models
`async with self.semaphore` granting a slot to a waiting fetch call (its
network phase begins); `release` models the call completing — in success or
failure — and the `async with` block releasing the slot unconditionally. -/
inductive GateStep : Nat × List TaskState → Nat × List TaskState → Prop
  | acquire (s : Nat) (pre post : List TaskState) :
      GateStep (s + 1, pre ++ .waiting :: post) (s, pre ++ .active :: post)
  | release (s : Nat) (pre post : List TaskState) :
      GateStep (s, pre ++ .active :: post) (s + 1, pre ++ .done :: post)

/-- Reachability from the initial state of the C9 scenario: a fetcher with
concurrency limit `C` (semaphore initialized to `C`) and `C + 1`
simultaneously issued fetch calls, all initially waiting at the semaphore. -/
def GateReach (C : Nat) (st : Nat × List TaskState) : Prop :=
  Relation.ReflTransGen GateStep (C, List.replicate (C + 1) .waiting) st

/-! ## Derived notions and concrete inputs used in the theorems below -/

/-- The backoff schedule produced by `j` consecutive retriable failures
starting at attempt `a`: the sleep after failing attempt `a + t` is
`delay_base * 2 ^ (a + t)` seconds. -/
def sleepsFor : Nat → Nat → List Nat
  | _, 0 => []
  | a, j + 1 => delay_base * 2 ^ a :: sleepsFor (a + 1) j

/-- A concrete `Resource` used to instantiate attempt oracles. -/
def wRes : Resource :=
  { url := "u", redirected_url := none, content := none, hash := none
    metadata := none, fetched_at := none, file_path := none }

/-- Attempt behavior: one retriable failure, then success. -/
def wOracleA : Nat → Attempt :=
  fun n => if n = 1 then .otherError "boom" else .success wRes

/-- Attempt behavior: every attempt fails retriably. -/
def wOracleB : Nat → Attempt :=
  fun _ => .otherError "down"

/-- A concrete invertible codec: `wEnc tag` prepends a tag byte and
`wDec tag` strips it, failing (raising) on any other input. -/
def wEnc (tag : Nat) : List Nat → List Nat :=
  fun b => tag :: b

def wDec (tag : Nat) : List Nat → Option (List Nat) :=
  fun l => match l with
    | [] => none
    | t :: rest => if t = tag then some rest else none

/-! ## Retry loop lemmas -/

theorem sleepsFor_zero (a : Nat) : sleepsFor a 0 = [] := rfl

theorem sleepsFor_succ (a j : Nat) :
    sleepsFor a (j + 1) = delay_base * 2 ^ a :: sleepsFor (a + 1) j := rfl

/-- The backoff schedule in closed form: the `t`-th sleep (0-indexed) of a
run of failures starting at attempt `a` is `delay_base * 2 ^ (a + t)`. -/
theorem sleepsFor_eq_map (a j : Nat) :
    sleepsFor a j = (List.range j).map (fun t => delay_base * 2 ^ (a + t)) := by
  induction j generalizing a with
  | zero => rfl
  | succ j ih =>
    rw [List.range_succ_eq_map, List.map_cons, List.map_map, sleepsFor_succ, ih (a + 1)]
    have hf : (fun t => delay_base * 2 ^ (a + 1 + t))
        = ((fun t => delay_base * 2 ^ (a + t)) ∘ Nat.succ) := by
      funext t
      have h : a + 1 + t = a + Nat.succ t := by omega
      simp [Function.comp, h]
    rw [hf]
    simp

/-- Running the retry loop across `j` consecutive retriable failures, none of
which is the final allowed attempt, advances the attempt counter by `j` and
appends the corresponding backoff sleeps. -/
theorem fetchGo_skip (url : String) (retries : Nat) (oracle : Nat → Attempt) :
    ∀ (j a fuel : Nat) (sleeps : List Nat),
      (∀ i, a ≤ i → i < a + j → (∃ m, oracle i = .otherError m) ∧ i ≠ retries) →
      fetchGo url retries oracle a sleeps (j + fuel)
        = fetchGo url retries oracle (a + j) (sleeps ++ sleepsFor a j) fuel := by
  intro j
  induction j with
  | zero =>
    intro a fuel sleeps _
    simp [sleepsFor_zero]
  | succ j ih =>
    intro a fuel sleeps hfail
    obtain ⟨⟨m, hm⟩, hne⟩ := hfail a (Nat.le_refl a) (by omega)
    have hstep : j + 1 + fuel = (j + fuel) + 1 := by omega
    rw [hstep]
    show fetchGo url retries oracle a sleeps (j + fuel + 1) = _
    rw [fetchGo, hm]
    simp only [if_neg hne]
    rw [ih (a + 1) fuel (sleeps ++ [delay_base * 2 ^ a])
      (fun i h1 h2 => hfail i (by omega) (by omega))]
    rw [sleepsFor_succ]
    simp [Nat.add_comm, Nat.add_assoc, Nat.add_left_comm]

/-- A run that fails retriably on attempts `1..k` and succeeds on attempt
`k + 1 ≤ retries` returns the success result on attempt `k + 1`, having slept
the backoff schedule for attempts `1..k`. -/
theorem fetch_with_retries_run_success (url : String) (N k fuel : Nat)
    (oracle : Nat → Attempt) (r : Resource)
    (hk : k < N) (hfuel : k + 1 ≤ fuel)
    (hfail : ∀ i, 1 ≤ i → i ≤ k → ∃ m, oracle i = .otherError m)
    (hsucc : oracle (k + 1) = .success r) :
    fetch_with_retries url N oracle fuel = some (.ok r (k + 1), sleepsFor 1 k) := by
  unfold fetch_with_retries
  have hsplit : fuel = k + (fuel - k) := by omega
  rw [hsplit]
  rw [fetchGo_skip url N oracle k 1 (fuel - k) []
    (fun i h1 h2 => ⟨hfail i h1 (by omega), by omega⟩)]
  have h2 : fuel - k = (fuel - k - 1) + 1 := by omega
  rw [h2]
  have h3 : 1 + k = k + 1 := by omega
  rw [h3, fetchGo, hsucc]
  simp

/-- A run in which every attempt fails retriably raises `FetchError` on
attempt `N = retries`, with the last error's message, having slept the
backoff schedule for attempts `1..N-1`. -/
theorem fetch_with_retries_run_exhaust (url : String) (N fuel : Nat)
    (oracle : Nat → Attempt) (msgs : Nat → String)
    (hN : 0 < N) (hfuel : N ≤ fuel)
    (hfail : ∀ i, 1 ≤ i → i ≤ N → oracle i = .otherError (msgs i)) :
    fetch_with_retries url N oracle fuel
      = some (.fetchError url (msgs N) N, sleepsFor 1 (N - 1)) := by
  unfold fetch_with_retries
  have hsplit : fuel = (N - 1) + (fuel - (N - 1)) := by omega
  rw [hsplit]
  rw [fetchGo_skip url N oracle (N - 1) 1 (fuel - (N - 1)) []
    (fun i h1 h2 => ⟨⟨msgs i, hfail i h1 (by omega)⟩, by omega⟩)]
  have h2 : fuel - (N - 1) = (fuel - (N - 1) - 1) + 1 := by omega
  rw [h2]
  have h3 : 1 + (N - 1) = N := by omega
  rw [h3, fetchGo, hfail N hN (Nat.le_refl N)]
  simp

/-! ## Claims C1-C3: retry protocol -/

/-- C1: with a positive maximum-attempts value `N`, if the single-attempt
fetch fails retriably exactly `k` times and then succeeds, with `k < N`,
`fetch` returns the successful `Resource` after exactly `k + 1` attempts;
and if every attempt fails retriably, `fetch` raises `FetchError` after
exactly `N` attempts. -/
theorem c1_retry_counts (url : String) (N fuel : Nat) (oracle : Nat → Attempt)
    (hN : 0 < N) (hfuel : N ≤ fuel) :
    (∀ k r, k < N →
        (∀ i, 1 ≤ i → i ≤ k → ∃ m, oracle i = .otherError m) →
        oracle (k + 1) = .success r →
        (fetch_with_retries url N oracle fuel).map Prod.fst = some (.ok r (k + 1)))
    ∧ (∀ msgs : Nat → String,
        (∀ i, 1 ≤ i → i ≤ N → oracle i = .otherError (msgs i)) →
        (fetch_with_retries url N oracle fuel).map Prod.fst
          = some (.fetchError url (msgs N) N)) := by
  constructor
  · intro k r hk hfail hsucc
    rw [fetch_with_retries_run_success url N k fuel oracle r hk (by omega) hfail hsucc]
    rfl
  · intro msgs hfail
    rw [fetch_with_retries_run_exhaust url N fuel oracle msgs hN hfuel hfail]
    rfl

/-- C1 witness: with maximum attempts 3, one retriable failure followed by a
success returns the resource on attempt 2; all attempts failing raises
`FetchError` on attempt 3. -/
theorem c1_retry_counts_witness :
    (fetch_with_retries "u" 3 wOracleA 3).map Prod.fst = some (.ok wRes 2)
    ∧ (fetch_with_retries "u" 3 wOracleB 3).map Prod.fst
        = some (.fetchError "u" "down" 3) := by
  constructor
  · exact (c1_retry_counts "u" 3 3 wOracleA (by decide) (by decide)).1 1 wRes
      (by decide)
      (by intro i hi1 hi2
          have hi : i = 1 := by omega
          subst hi
          exact ⟨"boom", rfl⟩)
      rfl
  · exact (c1_retry_counts "u" 3 3 wOracleB (by decide) (by decide)).2
      (fun _ => "down") (fun _ _ _ => rfl)

/-- C2: each retriable failure on attempt `n` (1-indexed) that does not
exhaust the attempt ceiling is followed by a sleep of exactly
`delay_base * 2 ^ n` seconds, `delay_base = 1`: the sleep trace of a run
with `k` initial failures is `[2^1, 2^2, …, 2^k]` — 2 s before the first
retry, 4 s before the second, doubling each time — and an exhausted run of
`N` attempts sleeps `[2^1, …, 2^(N-1)]`. -/
theorem c2_backoff_delays (url : String) (N fuel : Nat) (oracle : Nat → Attempt)
    (hN : 0 < N) (hfuel : N ≤ fuel) :
    (∀ k r, k < N →
        (∀ i, 1 ≤ i → i ≤ k → ∃ m, oracle i = .otherError m) →
        oracle (k + 1) = .success r →
        (fetch_with_retries url N oracle fuel).map Prod.snd
          = some ((List.range k).map (fun t => delay_base * 2 ^ (1 + t))))
    ∧ (∀ msgs : Nat → String,
        (∀ i, 1 ≤ i → i ≤ N → oracle i = .otherError (msgs i)) →
        (fetch_with_retries url N oracle fuel).map Prod.snd
          = some ((List.range (N - 1)).map (fun t => delay_base * 2 ^ (1 + t)))) := by
  constructor
  · intro k r hk hfail hsucc
    rw [fetch_with_retries_run_success url N k fuel oracle r hk (by omega) hfail hsucc]
    simp [sleepsFor_eq_map]
  · intro msgs hfail
    rw [fetch_with_retries_run_exhaust url N fuel oracle msgs hN hfuel hfail]
    simp [sleepsFor_eq_map]

/-- C2 witness: with maximum attempts 3, one failure then success sleeps
exactly `[2]`; three failures sleep exactly `[2, 4]`. -/
theorem c2_backoff_delays_witness :
    (fetch_with_retries "u" 3 wOracleA 3).map Prod.snd = some [2]
    ∧ (fetch_with_retries "u" 3 wOracleB 3).map Prod.snd = some [2, 4] := by
  constructor
  · have h := (c2_backoff_delays "u" 3 3 wOracleA (by decide) (by decide)).1 1 wRes
      (by decide)
      (by intro i hi1 hi2
          have hi : i = 1 := by omega
          subst hi
          exact ⟨"boom", rfl⟩)
      rfl
    exact h.trans (by decide)
  · have h := (c2_backoff_delays "u" 3 3 wOracleB (by decide) (by decide)).2
      (fun _ => "down") (fun _ _ _ => rfl)
    exact h.trans (by decide)

/-- C3: a fetch whose method is anything other than GET or POST is rejected
by the dispatch before any network request is issued (`ValueError`, no
`Request` constructed) and the failure is non-retriable: for every
configured retry count and every network behavior, the retry loop raises
`FetchError` after exactly one attempt with no backoff sleeps. -/
theorem c3_unsupported_method (method url : String)
    (headers : Option (List (String × String))) (net : Nat → Request → Attempt)
    (retries fuel : Nat) (h1 : method ≠ "GET") (h2 : method ≠ "POST")
    (hfuel : 1 ≤ fuel) :
    fetchOnceRequest method url headers
      = .valueError ("Unsupported HTTP method: " ++ method)
    ∧ fetch_with_retries url retries (attemptOf method url headers net) fuel
        = some (.fetchError url ("Unsupported HTTP method: " ++ method) 1, []) := by
  have hreq : fetchOnceRequest method url headers
      = .valueError ("Unsupported HTTP method: " ++ method) := by
    unfold fetchOnceRequest
    rw [if_neg h1, if_neg h2]
  refine ⟨hreq, ?_⟩
  obtain ⟨f, rfl⟩ : ∃ f, fuel = f + 1 := ⟨fuel - 1, by omega⟩
  have hor : attemptOf method url headers net 1
      = .valueError ("Unsupported HTTP method: " ++ method) := by
    unfold attemptOf
    rw [hreq]
  unfold fetch_with_retries
  rw [fetchGo, hor]

/-- C3 witness: method `"PUT"` with 3 configured retries — no request issued,
`FetchError` after exactly one attempt and no sleeps. -/
theorem c3_unsupported_method_witness :
    fetchOnceRequest "PUT" "u" none
      = .valueError ("Unsupported HTTP method: " ++ "PUT")
    ∧ fetch_with_retries "u" 3 (attemptOf "PUT" "u" none (fun _ _ => .success wRes)) 3
        = some (.fetchError "u" ("Unsupported HTTP method: " ++ "PUT") 1, []) :=
  c3_unsupported_method "PUT" "u" none (fun _ _ => .success wRes) 3 3
    (by decide) (by decide) (by decide)

/-! ## Materialization lemmas -/

theorem iterChunked_flatten (l : List Nat) : (iterChunked l).flatten = l := by
  induction l using iterChunked.induct with
  | case1 => simp [iterChunked]
  | case2 l h ih =>
    rw [iterChunked, dif_neg h]
    show List.take CHUNK_SIZE l ++ (iterChunked (List.drop CHUNK_SIZE l)).flatten = l
    rw [ih, List.take_append_drop]

theorem hashedBytes_interleave (cs : List (List Nat)) :
    hashedBytes (cs.flatMap (fun c => [.hashUpd c, .fileWrite c])) = cs.flatten := by
  induction cs with
  | nil => rfl
  | cons c cs ih =>
    simp only [List.flatMap_cons, hashedBytes, List.flatMap_append] at ih ⊢
    simp [ih]

theorem writtenBytes_interleave (cs : List (List Nat)) :
    writtenBytes (cs.flatMap (fun c => [.hashUpd c, .fileWrite c])) = cs.flatten := by
  induction cs with
  | nil => rfl
  | cons c cs ih =>
    simp only [List.flatMap_cons, writtenBytes, List.flatMap_append] at ih ⊢
    simp [ih]

/-- The bytes fed to the digest during streaming are exactly the raw body. -/
theorem hashedBytes_stream (body : List Nat) :
    hashedBytes (stream_and_hash body) = body := by
  unfold stream_and_hash
  rw [hashedBytes_interleave, iterChunked_flatten]

/-- The bytes written to the file during streaming are exactly the raw body. -/
theorem writtenBytes_stream (body : List Nat) :
    writtenBytes (stream_and_hash body) = body := by
  unfold stream_and_hash
  rw [writtenBytes_interleave, iterChunked_flatten]

/-! ## Claims C4-C6: resource materialization -/

/-- C4: on every buffered (non-streaming) fetch, the content is the response
body after conditional decompression routed by the lower-cased
`Content-Encoding` header, and the resource's hash is the digest of exactly
those content bytes. -/
theorem c4_buffered_digest (gzipD zlibD : List Nat → Option (List Nat))
    (H : List Nat → String) (url : String) (resp : Response)
    (fetched_at : String) (stream_to : Option String)
    (hst : pyTruthy stream_to = false) :
    ((from_response gzipD zlibD H url resp fetched_at stream_to).1).content
      = some (decompress gzipD zlibD resp.body
          (((headersGet resp.headers "Content-Encoding").getD "").toLower) false)
    ∧ ((from_response gzipD zlibD H url resp fetched_at stream_to).1).hash
      = some (H (decompress gzipD zlibD resp.body
          (((headersGet resp.headers "Content-Encoding").getD "").toLower) false)) := by
  constructor <;> simp [from_response, read_and_decompress, hst]

/-- C4 witness: a concrete buffered fetch of a gzip-encoded body. -/
theorem c4_buffered_digest_witness :
    pyTruthy none = false
    ∧ ((from_response (wDec 31) (wDec 120) (fun l => toString l)
          "u" ⟨"u", 200, [("Content-Encoding", "gzip")], wEnc 31 [5, 6], "utf-8"⟩
          "t" none).1).content
        = some (decompress (wDec 31) (wDec 120) (wEnc 31 [5, 6])
            (((headersGet [("Content-Encoding", "gzip")] "Content-Encoding").getD
              "").toLower) false)
    ∧ ((from_response (wDec 31) (wDec 120) (fun l => toString l)
          "u" ⟨"u", 200, [("Content-Encoding", "gzip")], wEnc 31 [5, 6], "utf-8"⟩
          "t" none).1).hash
        = some ((fun l => toString l) (decompress (wDec 31) (wDec 120) (wEnc 31 [5, 6])
            (((headersGet [("Content-Encoding", "gzip")] "Content-Encoding").getD
              "").toLower) false)) := by
  refine ⟨rfl, ?_⟩
  exact c4_buffered_digest (wDec 31) (wDec 120) (fun l => toString l) "u"
    ⟨"u", 200, [("Content-Encoding", "gzip")], wEnc 31 [5, 6], "utf-8"⟩ "t" none rfl

/-- C5: on every streaming fetch the effect trace consumes the body in
`CHUNK_SIZE`-byte chunks, hashing each chunk before writing it and before the
next chunk; the bytes hashed and the bytes written both equal the raw
response body (no decompression for any codecs or headers), the hash is the
digest of exactly the bytes written to the file, the file path is set and
the content unset. -/
theorem c5_streaming_digest (gzipD zlibD : List Nat → Option (List Nat))
    (H : List Nat → String) (url : String) (resp : Response)
    (fetched_at path : String) (hpath : path ≠ "") :
    (from_response gzipD zlibD H url resp fetched_at (some path)).2
      = (iterChunked resp.body).flatMap (fun c => [.hashUpd c, .fileWrite c])
    ∧ hashedBytes (from_response gzipD zlibD H url resp fetched_at (some path)).2
        = resp.body
    ∧ writtenBytes (from_response gzipD zlibD H url resp fetched_at (some path)).2
        = resp.body
    ∧ ((from_response gzipD zlibD H url resp fetched_at (some path)).1).hash
        = some (H resp.body)
    ∧ ((from_response gzipD zlibD H url resp fetched_at (some path)).1).content
        = none
    ∧ ((from_response gzipD zlibD H url resp fetched_at (some path)).1).file_path
        = some path := by
  have hemp : path.isEmpty = false := by
    cases hemp2 : path.isEmpty
    · rfl
    · exact absurd ((String.isEmpty_iff path).mp hemp2) hpath
  have htruthy : pyTruthy (some path) = true := by
    simp [pyTruthy, hemp]
  have hsnd : (from_response gzipD zlibD H url resp fetched_at (some path)).2
      = stream_and_hash resp.body := by
    simp [from_response, htruthy]
  have hhash : ((from_response gzipD zlibD H url resp fetched_at (some path)).1).hash
      = some (H (hashedBytes (stream_and_hash resp.body))) := by
    simp [from_response, htruthy]
  refine ⟨?_, ?_, ?_, ?_, ?_, ?_⟩
  · rw [hsnd]
    rfl
  · rw [hsnd, hashedBytes_stream]
  · rw [hsnd, writtenBytes_stream]
  · rw [hhash, hashedBytes_stream]
  · simp [from_response, htruthy]
  · simp [from_response, htruthy]

/-- C5 witness: a concrete streaming fetch to the path "out.bin". -/
theorem c5_streaming_digest_witness :
    ("out.bin" ≠ "")
    ∧ hashedBytes (from_response (wDec 31) (wDec 120) (fun l => toString l)
        "u" ⟨"u", 200, [("Content-Encoding", "gzip")], [9, 8, 7], "utf-8"⟩
        "t" (some "out.bin")).2 = [9, 8, 7]
    ∧ ((from_response (wDec 31) (wDec 120) (fun l => toString l)
        "u" ⟨"u", 200, [("Content-Encoding", "gzip")], [9, 8, 7], "utf-8"⟩
        "t" (some "out.bin")).1).hash = some ((fun l => toString l) [9, 8, 7]) := by
  have h := c5_streaming_digest (wDec 31) (wDec 120) (fun l => toString l) "u"
    ⟨"u", 200, [("Content-Encoding", "gzip")], [9, 8, 7], "utf-8"⟩ "t" "out.bin"
    (by decide)
  exact ⟨by decide, h.2.1, h.2.2.2.1⟩

/-- C6: every resource built by `from_response` has exactly one of content
and file path set: content set and path unset on the buffered path, path set
and content unset on the streaming path — never both, never neither. -/
theorem c6_exactly_one (gzipD zlibD : List Nat → Option (List Nat))
    (H : List Nat → String) (url : String) (resp : Response)
    (fetched_at : String) (stream_to : Option String) :
    (((from_response gzipD zlibD H url resp fetched_at stream_to).1).content.isSome)
      = !(((from_response gzipD zlibD H url resp fetched_at stream_to).1).file_path.isSome) := by
  cases hpt : pyTruthy stream_to <;> simp [from_response, hpt]

/-! ## Claims C7-C8: the decompressor -/

/-- C7: for each supported encoding E in {gzip, deflate}, decompressing the
E-encoding of a byte sequence under label E (not chunked) returns the
original bytes, given the codec collaborator contract that the decoder
inverts the encoder. -/
theorem c7_roundtrip (gzipD zlibD : List Nat → Option (List Nat))
    (gzipE zlibE : List Nat → List Nat) (b : List Nat)
    (hg : gzipD (gzipE b) = some b) (hz : zlibD (zlibE b) = some b) :
    decompress gzipD zlibD (gzipE b) "gzip" false = b
    ∧ decompress gzipD zlibD (zlibE b) "deflate" false = b := by
  constructor <;> simp [decompress, hg, hz]

/-- C7 witness: a concrete invertible codec pair (tag bytes 31 and 120)
applied to the bytes `[10, 20]`. -/
theorem c7_roundtrip_witness :
    wDec 31 (wEnc 31 [10, 20]) = some [10, 20]
    ∧ wDec 120 (wEnc 120 [10, 20]) = some [10, 20]
    ∧ decompress (wDec 31) (wDec 120) (wEnc 31 [10, 20]) "gzip" false = [10, 20]
    ∧ decompress (wDec 31) (wDec 120) (wEnc 120 [10, 20]) "deflate" false
        = [10, 20] := by
  have h := c7_roundtrip (wDec 31) (wDec 120) (wEnc 31) (wEnc 120) [10, 20]
    (by decide) (by decide)
  exact ⟨by decide, by decide, h.1, h.2⟩

theorem countActive_append (l₁ l₂ : List TaskState) :
    countActive (l₁ ++ l₂) = countActive l₁ + countActive l₂ := by
  induction l₁ with
  | nil => simp [countActive]
  | cons t l ih => cases t <;> simp [countActive, ih] <;> omega

theorem countActive_replicate_waiting (n : Nat) :
    countActive (List.replicate n .waiting) = 0 := by
  induction n with
  | zero => rfl
  | succ n ih => simp [List.replicate, countActive, ih]

theorem counts_total (l : List TaskState) :
    countWaiting l + countActive l + countDone l = l.length := by
  induction l with
  | nil => rfl
  | cons t l ih => cases t <;> simp [countWaiting, countActive, countDone] <;> omega

/-- Invariant of the gate: the free-slot count plus the number of tasks in
their network phase always equals the concurrency limit, and the task count
is `C + 1`. -/
theorem gateReach_invariant (C : Nat) :
    ∀ st : Nat × List TaskState, GateReach C st →
      st.1 + countActive st.2 = C ∧ st.2.length = C + 1 := by
  intro st h
  induction h with
  | refl =>
    refine ⟨?_, ?_⟩
    · simp [countActive_replicate_waiting]
    · simp
  | tail hst step ih =>
    obtain ⟨ih1, ih2⟩ := ih
    cases step with
    | acquire s pre post =>
      refine ⟨?_, ?_⟩
      · simp only [countActive_append, countActive] at ih1 ⊢
        omega
      · simp only [List.length_append, List.length_cons] at ih2 ⊢
        omega
    | release s pre post =>
      refine ⟨?_, ?_⟩
      · simp only [countActive_append, countActive] at ih1 ⊢
        omega
      · simp only [List.length_append, List.length_cons] at ih2 ⊢
        omega

/-- C9: with concurrency limit `C` and `C + 1` simultaneously issued fetch
calls, every reachable state of the gate has at most `C` calls in their
network phase; and in any reachable state where every call has begun its
network phase (none still waiting) — in particular at the instant the
`(C+1)`-th call starts — at least one call has already completed and
released its slot. -/
theorem c9_concurrency_gate (C : Nat) (st : Nat × List TaskState)
    (h : GateReach C st) :
    countActive st.2 ≤ C
    ∧ (countWaiting st.2 = 0 → 1 ≤ countDone st.2) := by
  obtain ⟨h1, h2⟩ := gateReach_invariant C st h
  have h3 := counts_total st.2
  exact ⟨by omega, fun hw => by omega⟩

/-- C9 witness: limit `C = 1`, two calls; after the schedule
acquire(0), release(0), acquire(1) the state `(0, [done, active])` is
reachable, no task is waiting, one is active (≤ 1) and one has completed. -/
theorem c9_concurrency_gate_witness :
    countActive [TaskState.done, TaskState.active] ≤ 1
    ∧ (countWaiting [TaskState.done, TaskState.active] = 0
        → 1 ≤ countDone [TaskState.done, TaskState.active]) := by
  apply c9_concurrency_gate 1 (0, [TaskState.done, TaskState.active])
  show Relation.ReflTransGen GateStep (1, List.replicate 2 .waiting)
    (0, [TaskState.done, TaskState.active])
  exact Relation.ReflTransGen.tail
    (Relation.ReflTransGen.tail
      (Relation.ReflTransGen.tail Relation.ReflTransGen.refl
        (GateStep.acquire 0 [] [.waiting]))
      (GateStep.release 0 [] [.waiting]))
    (GateStep.acquire 0 [.done] [])

/-! ## Claim C10: header defaulting -/

/-- C10: a fetch supplying a non-empty headers mapping issues the request
with exactly that mapping (defaults not merged in); a fetch omitting headers
or supplying an empty mapping issues the request with exactly the default
set — a `User-Agent` identifying the fetcher and `Accept-Encoding`
advertising gzip and deflate. -/
theorem c10_header_defaulting (url : String) (hl : List (String × String))
    (hne : hl ≠ []) :
    fetchOnceRequest "GET" url (some hl) = .issued ⟨"GET", url, hl⟩
    ∧ fetchOnceRequest "POST" url (some hl) = .issued ⟨"POST", url, hl⟩
    ∧ fetchOnceRequest "GET" url none = .issued ⟨"GET", url, DEFAULT_HEADERS⟩
    ∧ fetchOnceRequest "POST" url none = .issued ⟨"POST", url, DEFAULT_HEADERS⟩
    ∧ fetchOnceRequest "GET" url (some []) = .issued ⟨"GET", url, DEFAULT_HEADERS⟩
    ∧ fetchOnceRequest "POST" url (some []) = .issued ⟨"POST", url, DEFAULT_HEADERS⟩
    ∧ DEFAULT_HEADERS
        = [("User-Agent", "Fetcher/1.0"), ("Accept-Encoding", "gzip, deflate")] := by
  obtain ⟨p, hs, rfl⟩ : ∃ p hs, hl = p :: hs := by
    cases hl with
    | nil => exact absurd rfl hne
    | cons p hs => exact ⟨p, hs, rfl⟩
  exact ⟨rfl, rfl, rfl, rfl, rfl, rfl, rfl⟩

/-- C10 witness: the custom mapping `[("X-Custom", "1")]` is passed through
verbatim. -/
theorem c10_header_defaulting_witness :
    fetchOnceRequest "GET" "u" (some [("X-Custom", "1")])
      = .issued ⟨"GET", "u", [("X-Custom", "1")]⟩
    ∧ fetchOnceRequest "GET" "u" none = .issued ⟨"GET", "u", DEFAULT_HEADERS⟩ := by
  have h := c10_header_defaulting "u" [("X-Custom", "1")] (by decide)
  exact ⟨h.1, h.2.2.1⟩
